import Mathlib

/-!
Verification of the DHash repository core against its specification.

The C++ sources are shallowly embedded: 128/256-bit machine integers become
naturals with explicit reductions modulo 2^256 or modulo the ring size where
the code performs them, fallible operations return Except or pair the post
state with an optional error, and each definition follows the corresponding
C++ function line by line (file and function named in its doc comment).
The SHA-1 / RFC 4122 name-based UUID pipeline behind Key hashing is the
behavior of boost::uuids::name_generator_sha1 with the DNS namespace, the
library the sources call; it is validated below against the repository's own
expected hashes from merkel_tree_test.cc.
-/

namespace DHash

/-- Number of keys in the chord ring, fixed at 16^32 inside Key::InBetween
(key.cpp: mp::pow(mp::cpp_int(16), 32)). -/
def RING_SIZE : Nat := 16 ^ 32

/-- Size of the uint256 value space used by boost::multiprecision::uint256_t. -/
def U256 : Nat := 2 ^ 256

/-- Embedding of Key::InBetween (key.cpp lines 59-86).  The receiver value is
`v`, the arguments are `lo`, `hi` and the `inclusive` flag.  The code first
compares the raw bounds; in the `lo < hi` branch it compares the reduced value
against the reduced lower bound but against the RAW upper bound (the source
reads mod_value <= upper_bound), and in the wrapping branch it negates a
strict interval test when `inclusive` and a weak one otherwise, exactly as
the source does. -/
def Key.InBetween (v lo hi : Nat) (inclusive : Bool) : Bool :=
  if lo = hi then decide (v = hi)
  else
    if lo < hi then
      if inclusive then decide (lo % RING_SIZE ≤ v % RING_SIZE) && decide (v % RING_SIZE ≤ hi)
      else decide (lo % RING_SIZE < v % RING_SIZE) && decide (v % RING_SIZE < hi)
    else
      if inclusive then !(decide (hi % RING_SIZE < v % RING_SIZE) && decide (v % RING_SIZE < lo % RING_SIZE))
      else !(decide (hi % RING_SIZE ≤ v % RING_SIZE) && decide (v % RING_SIZE ≤ lo % RING_SIZE))

/-- The three-branch definition of InBetween exactly as the specification
words it (spec section 3): in the wrapping branch the exclusive test is
the negated strict interval and the inclusive test the negated weak one. -/
def InBetweenSpec (v lo hi : Nat) (inclusive : Bool) : Bool :=
  if lo = hi then decide (v = lo)
  else
    if lo < hi then
      if inclusive then decide (lo ≤ v) && decide (v ≤ hi)
      else decide (lo < v) && decide (v < hi)
    else
      if inclusive then !(decide (hi ≤ v) && decide (v ≤ lo))
      else !(decide (hi < v) && decide (v < lo))

/-- The specification's three-branch definition with the wrapping branch
corrected to what the code computes: there the INCLUSIVE test negates the
strict interval `hi < v < lo` and the EXCLUSIVE test negates the weak
interval `hi ≤ v ≤ lo`. -/
def InBetweenAmended (v lo hi : Nat) (inclusive : Bool) : Bool :=
  if lo = hi then decide (v = lo)
  else
    if lo < hi then
      if inclusive then decide (lo ≤ v) && decide (v ≤ hi)
      else decide (lo < v) && decide (v < hi)
    else
      if inclusive then !(decide (hi < v) && decide (v < lo))
      else !(decide (hi ≤ v) && decide (v ≤ lo))

/-! ## SHA-1 and the boost name-based UUID generator

Key(s, hashed=false) hashes a string through
boost::uuids::name_generator_sha1(boost::uuids::ns::dns()): SHA-1 of the DNS
namespace bytes followed by the name bytes, truncated to 16 bytes with the
RFC 4122 version/variant bits set, read as a big-endian 128-bit integer. -/

/-- Truncation to a 32-bit word. -/
def w32 (x : Nat) : Nat := x % 4294967296

/-- 32-bit left rotation. -/
def rotl (n x : Nat) : Nat := w32 ((x <<< n) ||| (x >>> (32 - n)))

/-- The SHA-1 round function for round `t`. -/
def sha1F (t b c d : Nat) : Nat :=
  if t < 20 then (b &&& c) ||| ((b ^^^ 4294967295) &&& d)
  else if t < 40 then b ^^^ c ^^^ d
  else if t < 60 then (b &&& c) ||| (b &&& d) ||| (c &&& d)
  else b ^^^ c ^^^ d

/-- The SHA-1 round constant for round `t`. -/
def sha1K (t : Nat) : Nat :=
  if t < 20 then 0x5A827999 else if t < 40 then 0x6ED9EBA1
  else if t < 60 then 0x8F1BBCDC else 0xCA62C1D6

/-- Extend a message schedule, kept in reverse (most recent word first), by
`n` further words. -/
def sha1ExtendW : Nat → List Nat → List Nat
  | 0, acc => acc
  | n+1, acc =>
      sha1ExtendW n
        (rotl 1 (acc.getD 2 0 ^^^ acc.getD 7 0 ^^^ acc.getD 13 0 ^^^ acc.getD 15 0) :: acc)

/-- Run the 80 SHA-1 rounds over the schedule words. -/
def sha1Rounds : List Nat → Nat → Nat × Nat × Nat × Nat × Nat → Nat × Nat × Nat × Nat × Nat
  | [], _, st => st
  | w :: ws, t, (a, b, c, d, e) =>
      sha1Rounds ws (t + 1) (w32 (rotl 5 a + sha1F t b c d + e + sha1K t + w), a, rotl 30 b, c, d)

/-- Compress one 16-word block into the running state. -/
def sha1Block (block : List Nat) (h : Nat × Nat × Nat × Nat × Nat) : Nat × Nat × Nat × Nat × Nat :=
  let ws := (sha1ExtendW 64 block.reverse).reverse
  let (h0, h1, h2, h3, h4) := h
  let (a, b, c, d, e) := sha1Rounds ws 0 h
  (w32 (h0 + a), w32 (h1 + b), w32 (h2 + c), w32 (h3 + d), w32 (h4 + e))

/-- Group a byte list into big-endian 32-bit words. -/
def bytesToWords : List Nat → List Nat
  | a :: b :: c :: d :: rest => (((a * 256 + b) * 256 + c) * 256 + d) :: bytesToWords rest
  | _ => []

/-- `n` big-endian bytes of a value. -/
def beBytes : Nat → Nat → List Nat
  | 0, _ => []
  | n+1, v => beBytes n (v / 256) ++ [v % 256]

/-- SHA-1 padding: 0x80, zeros to 56 mod 64, 8-byte big-endian bit length. -/
def sha1Pad (msg : List Nat) : List Nat :=
  let l := msg.length
  msg ++ 128 :: List.replicate ((119 - l % 64) % 64) 0 ++ beBytes 8 (8 * l)

/-- Compress `n` consecutive blocks. -/
def sha1Blocks : Nat → List Nat → Nat × Nat × Nat × Nat × Nat → Nat × Nat × Nat × Nat × Nat
  | 0, _, h => h
  | n+1, ws, h => sha1Blocks n (ws.drop 16) (sha1Block (ws.take 16) h)

/-- SHA-1 of a byte string, as the five 32-bit state words. -/
def sha1Words (msg : List Nat) : Nat × Nat × Nat × Nat × Nat :=
  let padded := sha1Pad msg
  let ws := bytesToWords padded
  sha1Blocks (ws.length / 16) ws (0x67452301, 0xEFCDAB89, 0x98BADCFE, 0x10325476, 0xC3D2E1F0)

/-- The four big-endian bytes of a 32-bit word. -/
def wordBytes (w : Nat) : List Nat := [w / 16777216 % 256, w / 65536 % 256, w / 256 % 256, w % 256]

/-- Set the RFC 4122 version (5) and variant bits on a 16-byte digest prefix,
as boost::uuids::detail::sha1-based name generation does. -/
def uuidVariantBytes : List Nat → List Nat
  | [b0, b1, b2, b3, b4, b5, b6, b7, b8, b9, b10, b11, b12, b13, b14, b15] =>
      [b0, b1, b2, b3, b4, b5, b6 % 16 + 80, b7, b8 % 64 + 128, b9, b10, b11, b12, b13, b14, b15]
  | l => l

/-- Big-endian byte fold into a natural number. -/
def bytesToNat (l : List Nat) : Nat := l.foldl (fun acc b => acc * 256 + b) 0

/-- The bytes of the RFC 4122 DNS namespace UUID
6ba7b810-9dad-11d1-80b4-00c04fd430c8 used by boost::uuids::ns::dns(). -/
def dnsNamespaceBytes : List Nat :=
  [0x6b, 0xa7, 0xb8, 0x10, 0x9d, 0xad, 0x11, 0xd1, 0x80, 0xb4, 0x00, 0xc0, 0x4f, 0xd4, 0x30, 0xc8]

/-- Embedding of GenerateSha1Hash (key.cpp lines 15-19) composed with the
uint256 conversion in the Key constructor: the name-based SHA-1 UUID of the
byte string, read as a big-endian integer. -/
def GenerateSha1Hash (name : List Nat) : Nat :=
  let (h0, h1, h2, h3, _) := sha1Words (dnsNamespaceBytes ++ name)
  bytesToNat (uuidVariantBytes (wordBytes h0 ++ wordBytes h1 ++ wordBytes h2 ++ wordBytes h3))

/-- ASCII byte of one lowercase hex digit. -/
def hexDigitByte (d : Nat) : Nat := if d < 10 then 48 + d else 87 + d

/-- Fuel-driven hex digit expansion, most significant digit first. -/
def hexBytesAux : Nat → Nat → List Nat
  | 0, _ => []
  | fuel+1, n => if n < 16 then [hexDigitByte n] else hexBytesAux fuel (n / 16) ++ [hexDigitByte (n % 16)]

/-- Embedding of IntToHexStr (key.cpp lines 27-33): the unpadded lowercase
hex representation, as ASCII bytes. -/
def IntToHexStr (n : Nat) : List Nat := hexBytesAux (n + 1) n

/-- Embedding of ConcatHash (merkle_node.h): Key(string(key1) + string(key2),
hashed=false), i.e. the name-based UUID of the concatenated hex strings. -/
def ConcatHash (k1 k2 : Nat) : Nat := GenerateSha1Hash (IntToHexStr k1 ++ IntToHexStr k2)

/-! ## Compact sparse Merkle index (merkle_node.h and its .cpp) -/

/-- Fuel-driven floor of the base-2 logarithm (`floorLog2Aux n n` is exact
for every positive `n`). -/
def floorLog2Aux : Nat → Nat → Nat
  | 0, _ => 0
  | fuel+1, n => if n < 2 then 0 else floorLog2Aux fuel (n / 2) + 1

/-- floor(log2 n) for positive n. -/
def floorLog2 (n : Nat) : Nat := floorLog2Aux n n

/-- Embedding of Distance (merkle_node.h): floor(log2(key1 XOR key2)).  The
cpp_bin_float value log2(0) is never reached on the runs considered here
(all compared keys are distinct); it is mapped to -1 so that the function
stays total. -/
def Distance (k1 k2 : Nat) : Int :=
  if k1 ^^^ k2 = 0 then -1 else Int.ofNat (floorLog2 (k1 ^^^ k2))

/-- A CSMerkleNode: a leaf carrying a key as its hash, or an internal node
with two children and the hash of their concatenated hex strings. -/
inductive MNode where
  | leaf : Nat → MNode
  | node : MNode → MNode → Nat → MNode
  deriving DecidableEq, Repr

/-- The hash_ member of a node. -/
def MNode.hash : MNode → Nat
  | .leaf h => h
  | .node _ _ h => h

/-- CSMerkleNode::IsLeaf: a node with no children. -/
def MNode.isLeaf : MNode → Bool
  | .leaf _ => true
  | .node _ _ _ => false

/-- CSMerkleNode(left, right): internal node whose hash is ConcatHash of the
children's hashes. -/
def mkInternal (l r : MNode) : MNode := .node l r (ConcatHash l.hash r.hash)

/-- Embedding of CSMerkleNode::InsertLeaf (children ordered by key; equal key
returns the leaf unchanged). -/
def InsertLeaf (lf : MNode) (key : Nat) : MNode :=
  if key < lf.hash then mkInternal (.leaf key) lf
  else if key > lf.hash then mkInternal lf (.leaf key)
  else lf

/-- Embedding of the private CSMerkleNode::Insert (merkle tree source lines
92-124).  `topLeft`/`topRight` are the hashes of the member pointers left_
and right_ of the object on which the method is invoked — the TOP-LEVEL
root's children, which the equidistant branch consults (the source reads
left_->hash_ and right_->hash_, not root->left_), unchanged through the
recursion. -/
def CSMerkleNode.InsertAux (topLeft topRight : Nat) : MNode → Nat → MNode
  | .leaf h, key => InsertLeaf (.leaf h) key
  | .node l r h, key =>
      let dl := Distance key l.hash
      let dr := Distance key r.hash
      if dl = dr then
        let minKey := if topLeft < topRight then topLeft else topRight
        if key < minKey then mkInternal (.leaf key) (.node l r h)
        else mkInternal (.node l r h) (.leaf key)
      else if dl < dr then mkInternal (CSMerkleNode.InsertAux topLeft topRight l key) r
      else mkInternal l (CSMerkleNode.InsertAux topLeft topRight r key)

/-- Embedding of the public CSMerkleNode::Insert: an absent root becomes a
leaf; at an internal root the member pointers left_/right_ (refreshed after
the previous public insert) are the root's children. -/
def CSMerkleNode.Insert (root : Option MNode) (key : Nat) : Option MNode :=
  match root with
  | none => some (.leaf key)
  | some (.leaf h) => some (InsertLeaf (.leaf h) key)
  | some (.node l r h) => some (CSMerkleNode.InsertAux l.hash r.hash (.node l r h) key)

/-- Insert a list of keys one by one into an empty index. -/
def BuildTree (keys : List Nat) : Option MNode := keys.foldl CSMerkleNode.Insert none

/-- Embedding of the private CSMerkleNode::Contains: retrace the insertion
routing; an equidistant internal node reports absence. -/
def CSMerkleNode.ContainsAux : MNode → Nat → Bool
  | .leaf h, key => decide (h = key)
  | .node l r _, key =>
      if l.isLeaf && decide (l.hash = key) then true
      else if r.isLeaf && decide (r.hash = key) then true
      else
        let dl := Distance key l.hash
        let dr := Distance key r.hash
        if dl < dr then CSMerkleNode.ContainsAux l key
        else if dr < dl then CSMerkleNode.ContainsAux r key
        else false

/-- Embedding of the public CSMerkleNode::Contains. -/
def CSMerkleNode.Contains (root : Option MNode) (key : Nat) : Bool :=
  match root with
  | none => false
  | some t => CSMerkleNode.ContainsAux t key

/-- The root hash of the index (hash_ is Key("0") = 0 while no root exists). -/
def CSMerkleNode.RootHash (root : Option MNode) : Nat :=
  match root with
  | none => 0
  | some t => t.hash

/-! ## Local store (database.h / database.cpp) -/

/-- The error kinds the embedded operations distinguish. -/
inductive CErr where
  | duplicate
  | notFound
  | outOfRange
  | capacity
  | badChar
  deriving DecidableEq, Repr

/-- A data fragment: 1-based index plus coefficient row (data_block.h). The
row values play no role in the store's bookkeeping. -/
structure DataFragment where
  index : Nat
  values : List Int
  deriving DecidableEq, Repr

/-- std::map::find on the key-ordered association list. -/
def mapFind : List (Nat × DataFragment) → Nat → Option DataFragment
  | [], _ => none
  | (k, f) :: rest, key => if key = k then some f else mapFind rest key

/-- std::map::insert: adds the pair at its ordered position, no overwrite of
an existing key. -/
def mapInsert : List (Nat × DataFragment) → Nat → DataFragment → List (Nat × DataFragment)
  | [], key, f => [(key, f)]
  | (k, g) :: rest, key, f =>
      if key < k then (key, f) :: (k, g) :: rest
      else if key = k then (k, g) :: rest
      else (k, g) :: mapInsert rest key f

/-- std::map::erase by key. -/
def mapErase : List (Nat × DataFragment) → Nat → List (Nat × DataFragment)
  | [], _ => []
  | (k, g) :: rest, key => if key = k then rest else (k, g) :: mapErase rest key

/-- it->second = value on the entry found for the key. -/
def mapUpdate : List (Nat × DataFragment) → Nat → DataFragment → List (Nat × DataFragment)
  | [], _, _ => []
  | (k, g) :: rest, key, f => if key = k then (k, f) :: rest else (k, g) :: mapUpdate rest key f

/-- The local store: a key-to-fragment map plus the CSMI index over keys
(database.h: members data_ and index_). -/
structure Database where
  data : List (Nat × DataFragment)
  index : Option MNode
  deriving DecidableEq, Repr

/-- Database::Database(): empty map, index root CSMerkleNode(nullptr,nullptr). -/
def Database.empty : Database := { data := [], index := none }

/-- Embedding of Database::Insert: throws if the key is already in the map
(before any mutation), otherwise indexes the key and inserts the pair.  The
result pairs the post state with the raised error, if any. -/
def Database.Insert (db : Database) (kf : Nat × DataFragment) : Database × Option CErr :=
  if (mapFind db.data kf.1).isSome then (db, some .duplicate)
  else ({ data := mapInsert db.data kf.1 kf.2,
          index := CSMerkleNode.Insert db.index kf.1 }, none)

/-- Embedding of Database::Contains: consults only the CSMI index. -/
def Database.Contains (db : Database) (key : Nat) : Bool :=
  CSMerkleNode.Contains db.index key

/-- Embedding of Database::Lookup: gated by the index; when the index reports
the key but the map lacks it, data_.at raises std::out_of_range. -/
def Database.Lookup (db : Database) (key : Nat) : Except CErr DataFragment :=
  if CSMerkleNode.Contains db.index key then
    match mapFind db.data key with
    | some f => .ok f
    | none => .error .outOfRange
  else .error .notFound

/-- Embedding of Database::Delete (database source lines 40-46): when the
index contains the key, the code erases the key from the map only — it
never calls index_.Delete — else it throws. -/
def Database.Delete (db : Database) (key : Nat) : Database × Option CErr :=
  if CSMerkleNode.Contains db.index key then
    ({ db with data := mapErase db.data key }, none)
  else (db, some .notFound)

/-- Embedding of Database::Update: overwrite the mapped fragment if present,
else throw; the index is untouched. -/
def Database.Update (db : Database) (kf : Nat × DataFragment) : Database × Option CErr :=
  if (mapFind db.data kf.1).isSome then
    ({ db with data := mapUpdate db.data kf.1 kf.2 }, none)
  else (db, some .notFound)

/-! ## DataBlock construction (data_block.cpp lines 165-197) -/

/-- Whether a fallible list computation raised. -/
def isErr : Except CErr (List Nat) → Bool
  | .error _ => true
  | .ok _ => false

/-- The per-character loop of the DataBlock constructor: push every character
code below 1000, throw on the first one at or above it. -/
def buildOriginal : List Nat → Except CErr (List Nat)
  | [] => .ok []
  | c :: rest =>
      if c < 1000 then (buildOriginal rest).map (fun r => c :: r)
      else .error .badChar

/-- Zero-pad the admitted character codes to the block length 40. -/
def padTo40 (l : List Nat) : List Nat := l ++ List.replicate (40 - l.length) 0

/-- Embedding of the validation and padding phase of
DataBlock::DataBlock(const std::string&, bool): reject inputs longer than 40
bytes, then admit characters below code 1000 one by one, then pad with zero
codes to length 40.  The subsequent IDA encode and the optional assert-based
sanity check operate on C++ doubles and are outside this embedding. -/
def DataBlockCtor (input : List Nat) : Except CErr (List Nat) :=
  if input.length > 40 then .error .capacity
  else (buildOriginal input).map padTo40

/-! ## Finger table ranges (finger_table.cpp) -/

/-- Fuel-driven count of hex digits (1 for values below 16). -/
def hexSizeAux : Nat → Nat → Nat
  | 0, _ => 1
  | fuel+1, n => if n < 16 then 1 else hexSizeAux fuel (n / 16) + 1

/-- Embedding of Key::Size: the length of the unpadded hex representation of
the key value. -/
def Key.Size (n : Nat) : Nat := hexSizeAux n n

/-- FingerTable::num_entries_, hard-coded to 4 * 32 in the constructor. -/
def FingerTable.numEntries : Nat := 4 * 32

/-- Embedding of FingerTable::GetNthRange together with the constructor's
keys_in_chord_ = 16 ^ starting_key.Size(): the bounds are reduced modulo
16 raised to the HEX WIDTH of the starting key, and the upper bound performs
its decrement in uint256 arithmetic after the reduction. -/
def FingerTable.GetNthRange (startingKey : Nat) (n : Nat) : Nat × Nat :=
  let keysInChord := 16 ^ Key.Size startingKey
  let lower := (startingKey + 2 ^ n) % keysInChord
  let upper := ((startingKey + 2 ^ (n + 1)) % keysInChord + U256 - 1) % U256
  (lower, upper)

/-- The range the specification assigns to finger `i`:
[starting_key + 2^i, starting_key + 2^(i+1) - 1] modulo the fixed ring size
16^32. -/
def SpecNthRange (startingKey i : Nat) : Nat × Nat :=
  ((startingKey + 2 ^ i) % RING_SIZE, (startingKey + 2 ^ (i + 1) - 1) % RING_SIZE)

/-! ## Peer::Create placement loop (peer source lines 620-644) -/

/-- std::vector::at: bounds-checked element access. -/
def vectorAt (l : List Nat) (i : Nat) : Except CErr Nat :=
  if h : i < l.length then .ok (l.get ⟨i, h⟩) else .error .outOfRange

/-- block.fragments_.size(): the IDA(14, 10, 40) encoder always emits N = 14
fragments. -/
def NUM_FRAGMENTS : Nat := 14

/-- Embedding of the placement phase of Peer::Create: fail (return false)
when fewer than 10 successors were gathered; otherwise iterate over the 14
fragment indices, each iteration reading succ_list.at(i), counting the local
insert or the remote CreateFragment result (abstracted by `remoteOk`), and
return whether at least 10 placements succeeded.  A raised std::out_of_range
from at() aborts the loop as the error result. -/
def Peer.Create (selfId : Nat) (succList : List Nat) (remoteOk : Nat → Bool) :
    Except CErr Bool :=
  if succList.length < 10 then .ok false
  else do
    let numReplicas ← (List.range NUM_FRAGMENTS).foldlM
      (fun acc i => do
        let succ ← vectorAt succList i
        if succ = selfId then pure (acc + 1)
        else pure (acc + if remoteOk succ then 1 else 0))
      0
    pure (decide (10 ≤ numReplicas))

/-! ## SynchronizeHandler (peer source lines 403-417) -/

/-- The JSON member names the synchronize exchange uses. -/
inductive JsonName where
  | COMMAND
  | KEYS
  | SUCCESS
  deriving DecidableEq, Repr

/-- The JSON values the synchronize exchange stores under those names. -/
inductive JsonField where
  | boolVal : Bool → JsonField
  | keysVal : List Nat → JsonField
  deriving DecidableEq, Repr

/-- Json::Value field read on an object kept as an association list. -/
def jsonGet : List (JsonName × JsonField) → JsonName → Option JsonField
  | [], _ => none
  | (n, v) :: rest, name => if name = n then some v else jsonGet rest name

/-- Iterating obj[name] as an array of keys; iterating an absent member (a
null Json::Value) yields no elements. -/
def jsonKeysOf (obj : List (JsonName × JsonField)) (name : JsonName) : List Nat :=
  match jsonGet obj name with
  | some (.keysVal ks) => ks
  | _ => []

/-- Embedding of Peer::SynchronizeHandler: build the response (only
SUCCESS = true is ever assigned), then iterate resp[KEYS] — the response
just built, not the request — and collect the iterated keys the database
does not contain; those are exactly the keys passed to RetrieveMissing.
Returns the response object together with that list. -/
def Peer.SynchronizeHandler (dbContains : Nat → Bool)
    (_request : List (JsonName × JsonField)) :
    List (JsonName × JsonField) × List Nat :=
  let resp : List (JsonName × JsonField) := [(.SUCCESS, .boolVal true)]
  let keysToSynchronize := jsonKeysOf resp .KEYS
  (resp, keysToSynchronize.filter (fun k => ! dbContains k))

/-- Modelled from the spec: the keys the handler is described as retrieving —
every key announced in the request's KEYS field that the local database does
not contain. -/
def SpecSynchronizeRetrieved (dbContains : Nat → Bool)
    (request : List (JsonName × JsonField)) : List Nat :=
  (jsonKeysOf request .KEYS).filter (fun k => ! dbContains k)

/-- A sample store state holding key 5, used by witnesses. -/
def dbWithKey5 : Database := (Database.empty.Insert (5, ⟨1, [7]⟩)).1

/-!
## Theorems
-/

set_option maxRecDepth 1000000

/-- C2 counterexample: at `v = 2`, `lo = 5`, `hi = 2`, inclusive, the code
returns true (2 is an endpoint of the wrapped arc [5, 2]) while the
specification's three-branch definition returns `¬(2 ≤ 2 ∧ 2 ≤ 5) = false`,
so Key::InBetween does not implement the spec's branch table. -/
theorem inBetween_spec_counterexample :
    Key.InBetween 2 5 2 true = true ∧ InBetweenSpec 2 5 2 true = false := by
  decide

/-- C2 (amended): for every value and bounds below the ring size,
Key::InBetween returns the spec's three-branch definition with the
inclusive and exclusive conditions of the wrapping branch interchanged. -/
theorem inBetween_eq_amended (v lo hi : Nat) (inclusive : Bool)
    (hv : v < RING_SIZE) (hlo : lo < RING_SIZE) (hhi : hi < RING_SIZE) :
    Key.InBetween v lo hi inclusive = InBetweenAmended v lo hi inclusive := by
  unfold Key.InBetween InBetweenAmended
  rw [Nat.mod_eq_of_lt hv, Nat.mod_eq_of_lt hlo, Nat.mod_eq_of_lt hhi]
  rcases eq_or_ne lo hi with h | h
  · subst h; simp
  · simp [h]

/-- Witness for `inBetween_eq_amended` at `v = 2`, `lo = 5`, `hi = 2`. -/
theorem inBetween_eq_amended_witness :
    Key.InBetween 2 5 2 true = InBetweenAmended 2 5 2 true :=
  inBetween_eq_amended 2 5 2 true (by decide) (by decide) (by decide)

/-- Bridge: the exclusive InBetween test as an arithmetic proposition, for
arguments below the ring size (where the partial reductions in the source
are the identity). -/
theorem inBetween_excl_true_iff (v lo hi : Nat)
    (hv : v < RING_SIZE) (hlo : lo < RING_SIZE) (hhi : hi < RING_SIZE) :
    Key.InBetween v lo hi false = true ↔
      (if lo = hi then v = hi
       else if lo < hi then lo < v ∧ v < hi
       else ¬(hi ≤ v ∧ v ≤ lo)) := by
  unfold Key.InBetween
  rw [Nat.mod_eq_of_lt hv, Nat.mod_eq_of_lt hlo, Nat.mod_eq_of_lt hhi]
  split_ifs <;> simp_all <;> omega

/-- C8 counterexample: for the pairwise-distinct triple `(0, 1, 2)` none of
the three clockwise-exclusive-between tests holds, refuting the claim that
exactly one of them always does. -/
theorem inBetween_triple_counterexample :
    Key.InBetween 0 1 2 false = false ∧
    Key.InBetween 1 2 0 false = false ∧
    Key.InBetween 2 0 1 false = false := by
  decide

/-- C8 (amended): for every pairwise-distinct triple of ring values the three
clockwise-exclusive-between tests agree — either all three hold (the triple
is in counterclockwise order) or none does — rather than exactly one holding. -/
theorem inBetween_cyclic_triple_agree (a b c : Nat)
    (ha : a < RING_SIZE) (hb : b < RING_SIZE) (hc : c < RING_SIZE)
    (hab : a ≠ b) (hbc : b ≠ c) (hac : a ≠ c) :
    Key.InBetween a b c false = Key.InBetween b c a false ∧
    Key.InBetween b c a false = Key.InBetween c a b false := by
  have H : ∀ x y : Bool, (x = true ↔ y = true) → x = y := by decide
  constructor
  · apply H
    rw [inBetween_excl_true_iff a b c ha hb hc,
        inBetween_excl_true_iff b c a hb hc ha]
    split_ifs <;> omega
  · apply H
    rw [inBetween_excl_true_iff b c a hb hc ha,
        inBetween_excl_true_iff c a b hc ha hb]
    split_ifs <;> omega

/-- Witness for `inBetween_cyclic_triple_agree` at the triple `(0, 2, 1)`
(all three tests come out true there). -/
theorem inBetween_cyclic_triple_agree_witness :
    Key.InBetween 0 2 1 false = Key.InBetween 2 1 0 false ∧
    Key.InBetween 2 1 0 false = Key.InBetween 1 0 2 false :=
  inBetween_cyclic_triple_agree 0 2 1 (by decide) (by decide) (by decide)
    (by decide) (by decide) (by decide)

/-- Validation of the hashing pipeline against the repository's own test
expectations (merkel_tree_test.cc): the embedded boost name-based SHA-1 UUID
of the one-byte strings a, b, c reproduces the leaf hashes the test asserts. -/
theorem sha1_model_matches_repo_keys :
    GenerateSha1Hash [97] = 0x4f3f289869e35a0d820ac4e87987dbce ∧
    GenerateSha1Hash [98] = 0x3f10dbe84cbd5e319b1faf0cb9dda9cf ∧
    GenerateSha1Hash [99] = 0xb72f1bcde22957e2bb24d01077785f16 := by
  decide

/-- Validation of the Merkle embedding against the repository's own test:
inserting the hashes of a, b, c in order yields exactly the root hash the
test MerkelNode.Insert asserts. -/
theorem merkle_model_matches_repo_test :
    CSMerkleNode.RootHash
      (BuildTree [GenerateSha1Hash [97], GenerateSha1Hash [98], GenerateSha1Hash [99]]) =
      0x9e28e020e5ff56e0a3825126a423cda5 := by
  decide

/-- C3: insertion order does affect the compact sparse Merkle index.
Inserting the key set 1, 2, 3, 4 in the order 1,2,3,4 and in the order
1,2,4,3 produces different trees with different root hashes: routing at an
internal node compares the key's distance against the child's MERKLE hash,
which for an internal child is a name-based SHA-1 value unrelated to the key
space, so where a key lands depends on which subtrees already exist. -/
theorem merkle_insert_order_dependent :
    BuildTree [1, 2, 3, 4] ≠ BuildTree [1, 2, 4, 3] ∧
    CSMerkleNode.RootHash (BuildTree [1, 2, 3, 4]) ≠
      CSMerkleNode.RootHash (BuildTree [1, 2, 4, 3]) := by
  decide

/-- C4: Database::Delete leaves the CSMI index stale.  Inserting key 5 into
an empty store and then deleting it succeeds, leaves the map empty, and yet
the index still contains the key: Contains(5) stays true and Lookup(5) runs
into std::map::at on an absent key (std::out_of_range) instead of reporting
the key as not present. -/
theorem database_delete_leaves_key_in_index :
    ((Database.empty.Insert (5, ⟨1, [7]⟩)).1.Delete 5).2 = none ∧
    ((Database.empty.Insert (5, ⟨1, [7]⟩)).1.Delete 5).1.data = [] ∧
    ((Database.empty.Insert (5, ⟨1, [7]⟩)).1.Delete 5).1.Contains 5 = true ∧
    ((Database.empty.Insert (5, ⟨1, [7]⟩)).1.Delete 5).1.Lookup 5 = .error .outOfRange :=
  ⟨rfl, rfl, rfl, rfl⟩

/-- C10: a failing Database::Insert is atomic.  When the key is already
mapped, the duplicate check raises before any mutation, so the map, the
index and therefore every derived observation are exactly those of the
pre state. -/
theorem database_insert_duplicate_is_atomic (db : Database) (k : Nat) (f : DataFragment)
    (h : (mapFind db.data k).isSome = true) :
    (db.Insert (k, f)).1.data = db.data ∧
    (db.Insert (k, f)).1.index = db.index ∧
    (db.Insert (k, f)).2 = some .duplicate := by
  unfold Database.Insert
  simp [h]

/-- Witness for `database_insert_duplicate_is_atomic` on a store holding
key 5, re-inserting key 5 with a different fragment. -/
theorem database_insert_duplicate_is_atomic_witness :
    (dbWithKey5.Insert (5, ⟨2, [9]⟩)).1.data = dbWithKey5.data ∧
    (dbWithKey5.Insert (5, ⟨2, [9]⟩)).1.index = dbWithKey5.index ∧
    (dbWithKey5.Insert (5, ⟨2, [9]⟩)).2 = some .duplicate :=
  database_insert_duplicate_is_atomic dbWithKey5 5 ⟨2, [9]⟩ (by decide)

/-- A mapped fallible result raises exactly when the unmapped one does. -/
theorem isErr_map (x : Except CErr (List Nat)) (f : List Nat → List Nat) :
    isErr (x.map f) = isErr x := by
  cases x <;> rfl

/-- The character loop of the DataBlock constructor raises exactly when some
character code is at least 1000. -/
theorem buildOriginal_err_iff (l : List Nat) :
    isErr (buildOriginal l) = true ↔ ∃ c ∈ l, 1000 ≤ c := by
  induction l with
  | nil => simp [buildOriginal, isErr]
  | cons c rest ih =>
      by_cases hc : c < 1000
      · have hc' : ¬ (1000 ≤ c) := by omega
        simp [buildOriginal, hc, isErr_map, ih, hc']
      · have hc' : (1000 ≤ c) := by omega
        simp [buildOriginal, hc, isErr, hc']

/-- C6: constructing a DataBlock from a character string fails exactly when
the string is longer than 40 or some character code is 1000 or more; every
input within both limits is admitted (and padded to the length-40 vector). -/
theorem dataBlock_ctor_error_iff (input : List Nat) :
    isErr (DataBlockCtor input) = true ↔
      40 < input.length ∨ ∃ c ∈ input, 1000 ≤ c := by
  unfold DataBlockCtor
  by_cases hlen : input.length > 40
  · simp [hlen, isErr]
  · simp [hlen, isErr_map, buildOriginal_err_iff]

/-- C7: the finger table does provide 4 * 32 = 128 entries, but computes its
ranges modulo 16 raised to the HEX WIDTH of the starting key rather than the
fixed ring size.  At starting key 1 (hex width 1) and index 5 the code's
lower bound is (1 + 2^5) mod 16 = 1 while the specification's fixed-ring
formula gives (1 + 2^5) mod 16^32 = 33. -/
theorem fingerTable_range_uses_key_width :
    (FingerTable.GetNthRange 1 5).1 = 1 ∧
    (SpecNthRange 1 5).1 = 33 ∧
    FingerTable.numEntries = 128 := by
  decide

/-- C9: a successor list that passes Peer::Create's fewer-than-10 check with
exactly 10 entries still drives succ_list.at(i) out of bounds at fragment
index 10, so Create aborts with std::out_of_range instead of returning a
boolean; the loop completes only when at least 14 successors were gathered,
and below 10 the early check returns false. -/
theorem peer_create_out_of_range_with_ten_successors :
    Peer.Create 99 [1, 2, 3, 4, 5, 6, 7, 8, 9, 10] (fun _ => true) = .error .outOfRange ∧
    Peer.Create 99 [1, 2, 3, 4, 5, 6, 7, 8, 9, 10, 11, 12, 13, 14] (fun _ => true) = .ok true ∧
    Peer.Create 99 [1, 2, 3] (fun _ => true) = .ok false :=
  ⟨rfl, rfl, rfl⟩

/-- C5: the SynchronizeHandler iterates resp[KEYS] — the response object it
just built, which carries only SUCCESS — instead of the request's KEYS
field.  For a request announcing key 5 to a database that does not contain
it, the handler passes no key at all to RetrieveMissing, while the
specification requires it to retrieve exactly key 5. -/
theorem synchronizeHandler_ignores_announced_keys :
    (Peer.SynchronizeHandler (fun _ => false) [(.KEYS, .keysVal [5])]).2 = [] ∧
    SpecSynchronizeRetrieved (fun _ => false) [(.KEYS, .keysVal [5])] = [5] :=
  ⟨rfl, rfl⟩

end DHash
